import Mathlib

/-!
Formal model of the DPDK EAL trace utilities
(lib/librte_eal/common/eal_common_trace_utils.c), with proofs about its
session persistence, identity, directory and argument-handling routines.

Modelling conventions: C strings are `List Char` (no interior NUL unless
written explicitly), machine integers are `Nat`/`Int` with explicit
wrap-around where overflow matters, and every I/O primitive (file system,
clocks, allocation) is an explicit oracle passed to the function under
study.  Helpers that live in other files of the repository (rte_strscpy,
RTE_UUID_INIT, the trace handle size mask) are modelled from the
specification and marked as such in their doc comments.
-/

/-- POSIX errno value E2BIG, the truncation error used by rte_strscpy. -/
def E2BIG : Nat := 7

/-- POSIX errno value ENOMEM, returned on allocation failure. -/
def ENOMEM : Nat := 12

/-- POSIX errno value EEXIST, set when a duplicate is found or a path exists. -/
def EEXIST : Nat := 17

/-- POSIX errno value EINVAL, returned when no home directory is available. -/
def EINVAL : Nat := 22

/-! ## Argument store (eal_trace_args_save / eal_trace_args_free) -/

/-- The `trace->args` argument store: the entries of the fixed array of
owned pattern strings (`args`, with `none` standing for a NULL slot) and
the number of stored entries (`nb_args`, a `uint8_t` in the C source). -/
@[ext]
structure ArgsStore where
  nb_args : Nat
  args : Nat → Option (List Char)

/-- eal_trace_args_save (lines 137-161): rejects the pattern with success
once `nb_args` has reached TRACE_MAX_ARGS; otherwise duplicates the string
(`allocOk` models whether calloc succeeds) and appends it.  TRACE_MAX_ARGS
(8 in the headers) keeps the uint8 counter far from wrap-around. -/
def eal_trace_args_save (TRACE_MAX_ARGS : Nat) (st : ArgsStore)
    (optarg : List Char) (allocOk : Bool) : ArgsStore × Int :=
  if TRACE_MAX_ARGS ≤ st.nb_args then (st, 0)
  else if allocOk = false then (st, -(Int.ofNat ENOMEM))
  else ({ nb_args := st.nb_args + 1,
          args := fun i => if i = st.nb_args then some optarg else st.args i }, 0)

/-- eal_trace_args_free (lines 163-175): frees and NULLs every slot below
`nb_args`; the counter itself is not written. -/
def eal_trace_args_free (st : ArgsStore) : ArgsStore :=
  { st with args := fun i => if i < st.nb_args then none else st.args i }

/-! ## Session identity (trace_uuid_generate) -/

/-- Modelled from the spec: `__RTE_TRACE_FIELD_SIZE_MASK`, the mask that
extracts the size-in-bits field from a trace point handle.  The C source
reads the masked value into a `uint16_t`, so the field is the low 16 bits. -/
def RTE_TRACE_FIELD_SIZE_MASK : Nat := 0xffff

/-- Lines 79-82: total event size, summed over the registered trace point
handles in a `uint64_t` accumulator. -/
def trace_uuid_sz_total (handles : List Nat) : Nat :=
  handles.foldl (fun acc h => (acc + (h &&& RTE_TRACE_FIELD_SIZE_MASK)) % 2 ^ 64) 0

/-- Modelled from the spec: `RTE_UUID_INIT` (rte_uuid.h, outside this file)
lays its five fields out in the standard UUID byte order: 32-bit `a`,
then 16-bit `b`, `c` and `d`, then 48-bit `e`, each big-endian. -/
def RTE_UUID_INIT (a b c d e : Nat) : List Nat :=
  [(a >>> 24) &&& 0xff, (a >>> 16) &&& 0xff, (a >>> 8) &&& 0xff, a &&& 0xff,
   (b >>> 8) &&& 0xff, b &&& 0xff,
   (c >>> 8) &&& 0xff, c &&& 0xff,
   (d >>> 8) &&& 0xff, d &&& 0xff,
   (e >>> 40) &&& 0xff, (e >>> 32) &&& 0xff, (e >>> 24) &&& 0xff,
   (e >>> 16) &&& 0xff, (e >>> 8) &&& 0xff, e &&& 0xff]

/-- trace_uuid_generate (lines 70-87): the session UUID, built from the
total handle size, the trace point count and three fixed constants. -/
def trace_uuid_generate (handles : List Nat) (nb_trace_points : Nat) : List Nat :=
  RTE_UUID_INIT (trace_uuid_sz_total handles) nb_trace_points
    0x4370 0x8f50 0x222ddd514176

/-! ## Clock correlator (trace_epoch_time_save) -/

/-- One read of an external clock source, in program order. -/
inductive TEvent where
  | tsc : TEvent
  | wallclock : TEvent
deriving DecidableEq

/-- Oracle for trace_epoch_time_save: the two TSC reads (in read order) and
the result of clock_gettime(CLOCK_REALTIME), `none` when it fails. -/
structure EpochEnv where
  tsc0 : Nat
  tsc1 : Nat
  clock : Option (Nat × Nat)

/-- The three fields trace_epoch_time_save stores into the trace object. -/
structure EpochOut where
  epoch_sec : Nat
  epoch_nsec : Nat
  uptime_ticks : Nat
deriving DecidableEq

/-- trace_epoch_time_save (lines 227-247): reads the TSC, the wall clock,
then the TSC again; on wall-clock failure returns -1 having stored nothing;
otherwise stores the seconds, nanoseconds and `(start + end) >> 1` computed
in `uint64_t` arithmetic.  The returned event list records the clock reads
actually performed, in order. -/
def trace_epoch_time_save (env : EpochEnv) : Int × Option EpochOut × List TEvent :=
  match env.clock with
  | none => (-1, none, [TEvent.tsc, TEvent.wallclock])
  | some p =>
    let avg := ((env.tsc0 + env.tsc1) % 2 ^ 64) >>> 1
    (0, some ⟨p.1, p.2, avg⟩, [TEvent.tsc, TEvent.wallclock, TEvent.tsc])

/-! ## Theorems for claims C3, C8, C9, C10 -/

/-- C9: for every argument-store state whose count has reached the fixed
maximum TRACE_MAX_ARGS, eal_trace_args_save returns success (0) without
storing the pattern and without modifying the store. -/
theorem eal_trace_args_save_full_noop (MAX : Nat) (st : ArgsStore)
    (optarg : List Char) (allocOk : Bool) (h : MAX ≤ st.nb_args) :
    eal_trace_args_save MAX st optarg allocOk = (st, 0) := by
  simp [eal_trace_args_save, h]

/-- Witness for C9 at a concrete full store. -/
theorem eal_trace_args_save_full_noop_witness :
    eal_trace_args_save 8 ⟨8, fun _ => none⟩ [] true = (⟨8, fun _ => none⟩, 0) :=
  eal_trace_args_save_full_noop 8 ⟨8, fun _ => none⟩ [] true (by decide)

/-- C10 as stated is false: eal_trace_args_free does not reset the stored
count to zero; with two stored entries the count remains 2 after freeing. -/
theorem eal_trace_args_free_count_counterexample :
    (eal_trace_args_free ⟨2, fun _ => some ['a']⟩).nb_args = 2 ∧ (2 : Nat) ≠ 0 :=
  ⟨rfl, by decide⟩

/-- C10 amended: eal_trace_args_free frees (NULLs) every stored entry and is
idempotent and safe on an empty store, but it leaves the stored count
unchanged instead of resetting it to zero. -/
theorem eal_trace_args_free_spec (st : ArgsStore) :
    (eal_trace_args_free st).nb_args = st.nb_args ∧
    (∀ i, i < st.nb_args → (eal_trace_args_free st).args i = none) ∧
    eal_trace_args_free (eal_trace_args_free st) = eal_trace_args_free st ∧
    (st.nb_args = 0 → eal_trace_args_free st = st) := by
  refine ⟨rfl, ?_, ?_, ?_⟩
  · intro i hi
    simp [eal_trace_args_free, hi]
  · ext i
    · rfl
    · by_cases h : i < st.nb_args <;> simp [eal_trace_args_free, h]
  · intro h0
    ext i
    · rfl
    · simp [eal_trace_args_free, h0]

/-- Witness for the amended C10: freeing a one-entry store NULLs its slot. -/
theorem eal_trace_args_free_spec_witness :
    (eal_trace_args_free ⟨1, fun _ => some ['a']⟩).args 0 = none :=
  (eal_trace_args_free_spec ⟨1, fun _ => some ['a']⟩).2.1 0 (by decide)

/-- C3: trace_uuid_generate is a deterministic function of the masked-size
total and the point count; registries with equal totals yield byte-identical
UUIDs, and the registry with handle sizes 8, 16 and 32 bits has total 56 and
stores the packed (56, 3) combination in the two size-derived fields,
alongside the fixed constants 0x4370, 0x8f50 and 0x222ddd514176. -/
theorem trace_uuid_generate_packed (h1 h2 : List Nat) (n : Nat)
    (hsz : trace_uuid_sz_total h1 = trace_uuid_sz_total h2) :
    trace_uuid_generate h1 n = trace_uuid_generate h2 n ∧
    trace_uuid_sz_total [8, 16, 32] = 56 ∧
    trace_uuid_generate [8, 16, 32] 3 =
      [0x00, 0x00, 0x00, 56, 0x00, 3, 0x43, 0x70, 0x8f, 0x50,
       0x22, 0x2d, 0xdd, 0x51, 0x41, 0x76] := by
  refine ⟨?_, by decide, by decide⟩
  unfold trace_uuid_generate
  rw [hsz]

/-- Witness for C3: two different registries with the same size total and
count produce the same UUID bytes. -/
theorem trace_uuid_generate_packed_witness :
    trace_uuid_generate [8, 16, 32] 3 = trace_uuid_generate [56] 3 :=
  (trace_uuid_generate_packed [8, 16, 32] [56] 3 (by decide)).1

/-- C8 as stated is false: with both counter reads equal to 2^63 the stored
uptime_ticks is 0, while the arithmetic mean of the two reads is 2^63; the
`uint64_t` sum wraps before the shift. -/
theorem trace_epoch_time_avg_counterexample :
    ((trace_epoch_time_save ⟨2 ^ 63, 2 ^ 63, some (1, 2)⟩).2.1).map
        EpochOut.uptime_ticks = some 0 ∧
    (2 ^ 63 + 2 ^ 63) / 2 = (2 ^ 63 : Nat) ∧ (0 : Nat) ≠ 2 ^ 63 := by
  refine ⟨?_, by decide, by decide⟩
  rfl

/-- C8 amended: trace_epoch_time_save reads TSC, wall clock, TSC in that
order, fails (returning -1, storing nothing) when the wall-clock read fails,
and otherwise stores the wall-clock seconds and nanoseconds together with
the mean of the two counter reads computed modulo 2^64 - which equals the
true floor mean whenever the counter sum does not overflow 64 bits. -/
theorem trace_epoch_time_save_spec (env : EpochEnv) :
    (env.clock = none →
        trace_epoch_time_save env = (-1, none, [TEvent.tsc, TEvent.wallclock])) ∧
    (∀ s ns, env.clock = some (s, ns) →
        trace_epoch_time_save env =
          (0, some ⟨s, ns, ((env.tsc0 + env.tsc1) % 2 ^ 64) >>> 1⟩,
            [TEvent.tsc, TEvent.wallclock, TEvent.tsc])) ∧
    (env.tsc0 + env.tsc1 < 2 ^ 64 →
        ((env.tsc0 + env.tsc1) % 2 ^ 64) >>> 1 = (env.tsc0 + env.tsc1) / 2) := by
  refine ⟨?_, ?_, ?_⟩
  · intro h
    simp [trace_epoch_time_save, h]
  · intro s ns h
    simp [trace_epoch_time_save, h]
  · intro h
    rw [Nat.mod_eq_of_lt h, Nat.shiftRight_eq_div_pow, pow_one]

/-- Witness for the amended C8 at concrete reads 6 and 8 and clock (5, 7). -/
theorem trace_epoch_time_save_spec_witness :
    trace_epoch_time_save ⟨6, 8, some (5, 7)⟩ =
      (0, some ⟨5, 7, 7⟩, [TEvent.tsc, TEvent.wallclock, TEvent.tsc]) :=
  (trace_epoch_time_save_spec ⟨6, 8, some (5, 7)⟩).2.1 5 7 rfl

/-! ## Trace point validator (trace_entry_compare / trace_has_duplicate_entry) -/

/-- Loop body of trace_entry_compare (lines 44-52): walks the registry
keeping a match count for `name` (strncmp up to the bounded name length `n`
is take-`n` equality for NUL-free bounded names) and stops with true as soon
as the count exceeds one. -/
def trace_entry_compare_go (n : Nat) (name : List Char) :
    List (List Char) → Nat → Bool
  | [], _ => false
  | tp :: rest, count =>
    let count1 := if tp.take n = name.take n then count + 1 else count
    if 1 < count1 then true else trace_entry_compare_go n name rest count1

/-- trace_entry_compare (lines 37-54): true when `name` occurs at least
twice in the registry `tps`. -/
def trace_entry_compare (n : Nat) (tps : List (List Char)) (name : List Char) :
    Bool :=
  trace_entry_compare_go n name tps 0

/-- Loop of trace_has_duplicate_entry (lines 63-65): scans the registry and
stops at the first name trace_entry_compare flags, recording the error
condition (rte_errno EEXIST and the logged offending name). -/
def trace_has_duplicate_entry_go (n : Nat) (tps : List (List Char)) :
    List (List Char) → Bool × Option (Nat × List Char)
  | [] => (false, none)
  | tp :: rest =>
    if trace_entry_compare n tps tp then (true, some (EEXIST, tp))
    else trace_has_duplicate_entry_go n tps rest

/-- trace_has_duplicate_entry (lines 56-68), returning the flag and the
error condition set on the duplicate path. -/
def trace_has_duplicate_entry (n : Nat) (tps : List (List Char)) :
    Bool × Option (Nat × List Char) :=
  trace_has_duplicate_entry_go n tps tps

theorem trace_entry_compare_go_eq_decide (n : Nat) (name : List Char)
    (l : List (List Char)) (c : Nat) (hc : c ≤ 1) :
    trace_entry_compare_go n name l c =
      decide (2 ≤ c + l.countP (fun tp => decide (tp.take n = name.take n))) := by
  induction l generalizing c with
  | nil =>
    have h2 : ¬ (2 ≤ c) := by omega
    simp [trace_entry_compare_go, h2]
  | cons tp rest ih =>
    have hcnt : (tp :: rest).countP (fun tp => decide (tp.take n = name.take n)) =
        rest.countP (fun tp => decide (tp.take n = name.take n)) +
          (if tp.take n = name.take n then 1 else 0) := by
      simp [List.countP_cons]
    simp only [trace_entry_compare_go, hcnt]
    by_cases h : tp.take n = name.take n
    · rw [if_pos h, if_pos h]
      by_cases h1 : 1 < c + 1
      · rw [if_pos h1, eq_comm, decide_eq_true_eq]
        omega
      · rw [if_neg h1, ih (c + 1) (by omega)]
        simp only [decide_eq_decide]
        omega
    · have h1 : ¬ 1 < c := by omega
      rw [if_neg h, if_neg h, if_neg h1, ih c hc]
      simp only [decide_eq_decide]
      omega

theorem trace_entry_compare_iff (n : Nat) (tps : List (List Char))
    (name : List Char) :
    trace_entry_compare n tps name = true ↔
      2 ≤ tps.countP (fun tp => decide (tp.take n = name.take n)) := by
  rw [trace_entry_compare,
    trace_entry_compare_go_eq_decide n name tps 0 (by omega)]
  simp

theorem countP_take_eq_count_map (n : Nat) (tps : List (List Char))
    (name : List Char) :
    tps.countP (fun tp => decide (tp.take n = name.take n)) =
      @List.count (List Char) instBEqOfDecidableEq (name.take n)
        (tps.map (fun tp => tp.take n)) := by
  induction tps with
  | nil => rfl
  | cons tp rest ih =>
    simp only [List.countP_cons, List.map_cons, List.count_cons, ih, beq_iff_eq]
    by_cases h : tp.take n = name.take n <;> simp [h]

theorem trace_has_duplicate_entry_go_false (n : Nat) (tps l : List (List Char))
    (h : ∀ tp ∈ l, trace_entry_compare n tps tp = false) :
    trace_has_duplicate_entry_go n tps l = (false, none) := by
  induction l with
  | nil => rfl
  | cons tp rest ih =>
    have h1 := h tp (List.mem_cons_self tp rest)
    rw [trace_has_duplicate_entry_go, if_neg (by simp [h1])]
    exact ih fun x hx => h x (List.mem_cons_of_mem _ hx)

theorem trace_has_duplicate_entry_go_true (n : Nat) (tps l : List (List Char))
    (h : ∃ tp ∈ l, trace_entry_compare n tps tp = true) :
    (trace_has_duplicate_entry_go n tps l).1 = true ∧
      ∃ nm, (trace_has_duplicate_entry_go n tps l).2 = some (EEXIST, nm) ∧
        trace_entry_compare n tps nm = true := by
  induction l with
  | nil => simp at h
  | cons tp rest ih =>
    by_cases h1 : trace_entry_compare n tps tp = true
    · rw [trace_has_duplicate_entry_go, if_pos (by simp [h1])]
      exact ⟨rfl, tp, rfl, h1⟩
    · obtain ⟨x, hx, hcx⟩ := h
      rcases List.mem_cons.mp hx with rfl | hx2
      · exact absurd hcx h1
      · have hrest := ih ⟨x, hx2, hcx⟩
        rw [trace_has_duplicate_entry_go, if_neg (by simp [h1])]
        exact hrest

/-- C4: trace_has_duplicate_entry returns false (setting no error) for every
registry whose names are pairwise distinct under case-sensitive comparison
truncated at the bounded name length `n`, and returns true for every
registry containing a repeated name, setting rte_errno to EEXIST together
with an offending name that occurs at least twice. -/
theorem trace_has_duplicate_entry_spec (n : Nat) (tps : List (List Char)) :
    (tps.Pairwise (fun a b => a.take n ≠ b.take n) →
        trace_has_duplicate_entry n tps = (false, none)) ∧
    (¬ tps.Pairwise (fun a b => a.take n ≠ b.take n) →
        (trace_has_duplicate_entry n tps).1 = true ∧
        ∃ nm, (trace_has_duplicate_entry n tps).2 = some (EEXIST, nm) ∧
          2 ≤ tps.countP (fun tp => decide (tp.take n = nm.take n))) := by
  have hpair : tps.Pairwise (fun a b => a.take n ≠ b.take n) ↔
      (tps.map (fun tp => tp.take n)).Nodup := by
    rw [List.Nodup, List.pairwise_map]
  constructor
  · intro hp
    have hnd := hpair.mp hp
    refine trace_has_duplicate_entry_go_false n tps tps fun tp _ => ?_
    have hc1 : @List.count (List Char) instBEqOfDecidableEq (tp.take n)
        (tps.map (fun tp => tp.take n)) ≤ 1 :=
      List.nodup_iff_count_le_one.mp hnd (tp.take n)
    rw [Bool.eq_false_iff, Ne, trace_entry_compare_iff,
      countP_take_eq_count_map]
    omega
  · intro hp
    have hnd : ¬ (tps.map (fun tp => tp.take n)).Nodup := fun hnd =>
      hp (hpair.mpr hnd)
    obtain ⟨x, hdup⟩ := List.exists_duplicate_iff_not_nodup.mpr hnd
    obtain ⟨nm, hnm, hxeq⟩ := List.mem_map.mp hdup.mem
    have hcount : 2 ≤ @List.count (List Char) instBEqOfDecidableEq x
        (tps.map (fun tp => tp.take n)) :=
      List.duplicate_iff_two_le_count.mp hdup
    have hcmp : trace_entry_compare n tps nm = true := by
      rw [trace_entry_compare_iff, countP_take_eq_count_map, hxeq]
      exact hcount
    obtain ⟨hfst, nm2, hsnd, hcmp2⟩ :=
      trace_has_duplicate_entry_go_true n tps tps ⟨nm, hnm, hcmp⟩
    exact ⟨hfst, nm2, hsnd, (trace_entry_compare_iff n tps nm2).mp hcmp2⟩

/-- Witness for C4 on a registry with a repeated two-character name. -/
theorem trace_has_duplicate_entry_spec_witness :
    (trace_has_duplicate_entry 64 [['a', 'b'], ['c'], ['a', 'b']]).1 = true :=
  (((trace_has_duplicate_entry_spec 64 [['a', 'b'], ['c'], ['a', 'b']]).2)
    (by decide)).1

/-! ## Persistence engine (rte_trace_save) -/

/-- One file-system side effect of rte_trace_save, in program order: the
metadata file write attempt, the spinlock operations, and one
`channel0_<idx>` write attempt per worker region passed to trace_mem_save. -/
inductive SEvent where
  | metaWrite : SEvent
  | lockAcquire : SEvent
  | regionWrite : Nat → SEvent
  | lockRelease : SEvent
deriving DecidableEq

/-- Oracle for rte_trace_save: the composite result of trace_meta_save
(snprintf, fopen, rte_trace_metadata_dump attempt, fclose collapse into one
code, 0 on success) and, per region index, the composite result of
trace_mem_save (0 on success, negative errno otherwise). -/
structure SaveEnv where
  meta_rc : Int
  mem_rc : Nat → Int

/-- The per-region loop of rte_trace_save (lines 400-405) over the list of
region indices still to visit: each visited index produces one
trace_mem_save call (one `channel0_` file write attempt); a non-zero result
stops the loop and becomes the loop's result. -/
def trace_mem_loop (env : SaveEnv) : List Nat → Int × List SEvent
  | [] => (0, [])
  | c :: rest =>
    if env.mem_rc c = 0 then
      let o := trace_mem_loop env rest
      (o.1, SEvent.regionWrite c :: o.2)
    else (env.mem_rc c, [SEvent.regionWrite c])

/-- rte_trace_save (lines 384-408): immediate success with no file
operation when no worker region is registered; otherwise the metadata write,
and on its success the locked per-region loop over indices 0..nb-1. -/
def rte_trace_save (nb : Nat) (env : SaveEnv) : Int × List SEvent :=
  if nb = 0 then (0, [])
  else if env.meta_rc ≠ 0 then (env.meta_rc, [SEvent.metaWrite])
  else
    let o := trace_mem_loop env (List.range nb)
    (o.1, SEvent.metaWrite :: SEvent.lockAcquire :: (o.2 ++ [SEvent.lockRelease]))

/-- The region indices written (in order) by a list of save events. -/
def writtenRegions : List SEvent → List Nat
  | [] => []
  | SEvent.regionWrite i :: rest => i :: writtenRegions rest
  | SEvent.metaWrite :: rest => writtenRegions rest
  | SEvent.lockAcquire :: rest => writtenRegions rest
  | SEvent.lockRelease :: rest => writtenRegions rest

theorem writtenRegions_append (a b : List SEvent) :
    writtenRegions (a ++ b) = writtenRegions a ++ writtenRegions b := by
  induction a with
  | nil => rfl
  | cons e rest ih => cases e <;> simp [writtenRegions, ih]

theorem writtenRegions_map_regionWrite (l : List Nat) :
    writtenRegions (l.map SEvent.regionWrite) = l := by
  induction l with
  | nil => rfl
  | cons c rest ih => simp [writtenRegions, ih]

theorem trace_mem_loop_ok (env : SaveEnv) (l : List Nat)
    (h : ∀ c ∈ l, env.mem_rc c = 0) :
    trace_mem_loop env l = (0, l.map SEvent.regionWrite) := by
  induction l with
  | nil => rfl
  | cons c rest ih =>
    rw [trace_mem_loop, if_pos (h c (List.mem_cons_self c rest)),
      ih fun x hx => h x (List.mem_cons_of_mem _ hx)]
    rfl

theorem trace_mem_loop_fail (env : SaveEnv) (l1 l2 : List Nat) (k : Nat)
    (h1 : ∀ c ∈ l1, env.mem_rc c = 0) (hk : env.mem_rc k ≠ 0) :
    trace_mem_loop env (l1 ++ k :: l2) =
      (env.mem_rc k, (l1 ++ [k]).map SEvent.regionWrite) := by
  induction l1 with
  | nil => simp [trace_mem_loop, hk]
  | cons c rest ih =>
    rw [List.cons_append, trace_mem_loop,
      if_pos (h1 c (List.mem_cons_self c rest)),
      ih fun x hx => h1 x (List.mem_cons_of_mem _ hx)]
    rfl

theorem range_split_at (k m : Nat) :
    List.range (k + (1 + m)) = List.range k ++ k ::
      (((List.range m).map Nat.succ).map (fun i => k + i)) := by
  rw [List.range_add, Nat.add_comm 1 m, List.range_succ_eq_map]
  simp

theorem rte_trace_save_fail_eq (nb k : Nat) (env : SaveEnv)
    (hmeta : env.meta_rc = 0) (hk : k < nb)
    (hpre : ∀ i, i < k → env.mem_rc i = 0) (hf : env.mem_rc k ≠ 0) :
    rte_trace_save nb env =
      (env.mem_rc k, SEvent.metaWrite :: SEvent.lockAcquire ::
        ((List.range (k + 1)).map SEvent.regionWrite ++ [SEvent.lockRelease])) := by
  have hnb : ¬ nb = 0 := by omega
  have hsplit := range_split_at k (nb - k - 1)
  rw [show k + (1 + (nb - k - 1)) = nb from by omega] at hsplit
  rw [rte_trace_save, if_neg hnb, if_neg (by simp [hmeta]), hsplit,
    trace_mem_loop_fail env _ _ k (fun c hc => hpre c (List.mem_range.mp hc)) hf]
  rw [List.range_succ]

theorem rte_trace_save_ok_eq (nb : Nat) (env : SaveEnv)
    (hmeta : env.meta_rc = 0) (hnb : 0 < nb)
    (hall : ∀ i, i < nb → env.mem_rc i = 0) :
    rte_trace_save nb env =
      (0, SEvent.metaWrite :: SEvent.lockAcquire ::
        ((List.range nb).map SEvent.regionWrite ++ [SEvent.lockRelease])) := by
  rw [rte_trace_save, if_neg (by omega), if_neg (by simp [hmeta]),
    trace_mem_loop_ok env _ fun c hc => hall c (List.mem_range.mp hc)]

/-- C1: with at least one worker region and a successful metadata write,
rte_trace_save writes regions in registration order starting at index 0
(the written indices always form an initial segment); if region k is the
first to fail, exactly regions 0..k are written (none greater than k, the
earlier files remain in the event record), the lock is released afterwards
and the region error is returned; and the call succeeds if and only if the
metadata write and every per-region write succeed. -/
theorem rte_trace_save_order_and_errors (nb k : Nat) (env : SaveEnv)
    (hnb : 0 < nb) (hmeta : env.meta_rc = 0) :
    (∃ m, m ≤ nb ∧ writtenRegions (rte_trace_save nb env).2 = List.range m) ∧
    (k < nb → (∀ i, i < k → env.mem_rc i = 0) → env.mem_rc k ≠ 0 →
      rte_trace_save nb env =
        (env.mem_rc k, SEvent.metaWrite :: SEvent.lockAcquire ::
          ((List.range (k + 1)).map SEvent.regionWrite ++ [SEvent.lockRelease]))) ∧
    ((rte_trace_save nb env).1 = 0 ↔ ∀ i, i < nb → env.mem_rc i = 0) := by
  refine ⟨?_, fun hk hpre hf => rte_trace_save_fail_eq nb k env hmeta hk hpre hf, ?_⟩
  · by_cases hall : ∀ i, i < nb → env.mem_rc i = 0
    · refine ⟨nb, le_refl nb, ?_⟩
      rw [rte_trace_save_ok_eq nb env hmeta hnb hall]
      simp [writtenRegions, writtenRegions_append, writtenRegions_map_regionWrite]
    · have hex : ∃ i, i < nb ∧ env.mem_rc i ≠ 0 := by
        push_neg at hall
        obtain ⟨i, hi, hne⟩ := hall
        exact ⟨i, hi, hne⟩
      have hP := Nat.find_spec hex
      set j := Nat.find hex with hj
      have hpre : ∀ i, i < j → env.mem_rc i = 0 := by
        intro i hi
        by_contra hne
        exact absurd (Nat.find_min hex hi ⟨by omega, hne⟩) (by simp)
      refine ⟨j + 1, by omega, ?_⟩
      rw [rte_trace_save_fail_eq nb j env hmeta hP.1 hpre hP.2]
      simp [writtenRegions, writtenRegions_append, writtenRegions_map_regionWrite]
  · constructor
    · intro hrc
      by_contra hall
      have hex : ∃ i, i < nb ∧ env.mem_rc i ≠ 0 := by
        push_neg at hall
        obtain ⟨i, hi, hne⟩ := hall
        exact ⟨i, hi, hne⟩
      have hP := Nat.find_spec hex
      have hpre : ∀ i, i < Nat.find hex → env.mem_rc i = 0 := by
        intro i hi
        by_contra hne
        exact absurd (Nat.find_min hex hi ⟨by omega, hne⟩) (by simp)
      rw [rte_trace_save_fail_eq nb (Nat.find hex) env hmeta hP.1 hpre hP.2] at hrc
      exact hP.2 hrc
    · intro hall
      rw [rte_trace_save_ok_eq nb env hmeta hnb hall]

/-- Witness for C1: three regions with a failure at index 1 produce exactly
the metadata write, the lock acquisition, writes of regions 0 and 1, and the
lock release, returning the failing region's error. -/
theorem rte_trace_save_order_and_errors_witness :
    rte_trace_save 3 ⟨0, fun i => if i = 1 then -5 else 0⟩ =
      (-5, SEvent.metaWrite :: SEvent.lockAcquire ::
        ((List.range 2).map SEvent.regionWrite ++ [SEvent.lockRelease])) :=
  ((rte_trace_save_order_and_errors 3 1 ⟨0, fun i => if i = 1 then -5 else 0⟩
    (by decide) rfl).2.1 (by decide) (by decide) (by decide))

/-- C2: with zero registered worker regions rte_trace_save returns success
and performs no file operation at all: neither the metadata file nor any
channel0_ file is touched. -/
theorem rte_trace_save_empty_noop (env : SaveEnv) :
    rte_trace_save 0 env = (0, []) := rfl

/-! ## Directory path building (trace_dir_update) -/

/-- The NUL terminator. -/
def nulChar : Char := Char.ofNat 0

/-- Byte-wise store of `src` into `buf` starting at position `pos`,
modelling a bounded C buffer write. -/
def writeAt (buf : List Char) (pos : Nat) (src : List Char) : List Char :=
  buf.take pos ++ src ++ buf.drop (pos + src.length)

/-- Modelled from the spec: rte_strscpy (rte_string_fns, outside this file)
copies `src` and its NUL terminator into the destination buffer at `pos`
when they fit within `dsize` bytes, returning the copied length; a source
that does not fit fails with -E2BIG, the truncation error, and (per the
spec) leaves the destination unmodified. -/
def rte_strscpy (dst : List Char) (pos : Nat) (src : List Char) (dsize : Nat) :
    List Char × Int :=
  if src.length + 1 ≤ dsize then
    (writeAt dst pos (src ++ [nulChar]), Int.ofNat src.length)
  else (dst, -(Int.ofNat E2BIG))

/-- The `trace->dir` fixed-capacity path buffer (`buf` holds the whole
array) and the write offset `dir_offset` marking its used portion. -/
structure TraceDir where
  buf : List Char
  dir_offset : Nat
deriving DecidableEq

/-- The C string currently held by `trace->dir`: the buffer up to the
offset (each append leaves the NUL just past the offset). -/
def dirStr (st : TraceDir) : List Char := st.buf.take st.dir_offset

/-- trace_dir_update (lines 121-135): appends `str` at the current offset,
with the remaining capacity computed as the buffer size minus the offset;
on success the offset advances by the copied length, on failure the
negative return is passed through and the offset is untouched. -/
def trace_dir_update (cap : Nat) (st : TraceDir) (str : List Char) :
    TraceDir × Int :=
  let remaining := cap - st.dir_offset
  let res := rte_strscpy st.buf st.dir_offset str remaining
  if res.2 < 0 then ({ st with buf := res.1 }, res.2)
  else ({ buf := res.1, dir_offset := st.dir_offset + res.2.toNat }, res.2)

/-- C6: trace_dir_update computes the remaining capacity as the buffer size
minus the current offset; a string that does not fit (with its terminator)
fails with -E2BIG (the code behind the PathTooLong error), leaving the
offset and the entire buffer - in particular everything beyond the current
offset - unmodified; a string that fits returns its length, advances the
offset by exactly that length, and the new offset never exceeds the
capacity. -/
theorem trace_dir_update_bounds (cap : Nat) (st : TraceDir) (str : List Char)
    (hoff : st.dir_offset ≤ cap) :
    (cap - st.dir_offset < str.length + 1 →
      trace_dir_update cap st str = (st, -(Int.ofNat E2BIG))) ∧
    (str.length + 1 ≤ cap - st.dir_offset →
      (trace_dir_update cap st str).2 = Int.ofNat str.length ∧
      (trace_dir_update cap st str).1.dir_offset = st.dir_offset + str.length ∧
      st.dir_offset + str.length ≤ cap) := by
  constructor
  · intro hbig
    have hfit : ¬ (str.length + 1 ≤ cap - st.dir_offset) := by omega
    rw [trace_dir_update]
    simp only [rte_strscpy, if_neg hfit]
    rw [if_pos (by simp [E2BIG])]
  · intro hfit
    rw [trace_dir_update]
    simp only [rte_strscpy, if_pos hfit]
    rw [if_neg (by simp)]
    refine ⟨rfl, ?_, by omega⟩
    simp [Int.toNat_ofNat]

/-- Witness for C6: appending three characters into two remaining bytes
fails with -E2BIG and leaves the state untouched. -/
theorem trace_dir_update_bounds_witness :
    trace_dir_update 8 ⟨List.replicate 8 ' ', 6⟩ ['a', 'b', 'c'] =
      (⟨List.replicate 8 ' ', 6⟩, -(Int.ofNat E2BIG)) :=
  (trace_dir_update_bounds 8 ⟨List.replicate 8 ' ', 6⟩ ['a', 'b', 'c']
    (by decide)).1 (by decide)

/-! ## Session name generation (trace_session_name_generate) -/

/-- ASCII digit for a decimal value below ten. -/
def decDigit (d : Nat) : Char := Char.ofNat (48 + d)

/-- Fuel-driven decimal rendering loop (most significant digit first). -/
def natToDecGo : Nat → Nat → List Char → List Char
  | 0, _, acc => acc
  | _ + 1, 0, acc => acc
  | fuel + 1, n, acc => natToDecGo fuel (n / 10) (decDigit (n % 10) :: acc)

/-- Decimal rendering of a natural number, as printf/strftime produce it. -/
def natToDec (n : Nat) : List Char :=
  if n = 0 then [decDigit 0] else natToDecGo n n []

/-- Two-digit zero-padded decimal, as strftime's %m, %d, %I, %M, %S. -/
def pad2 (n : Nat) : List Char :=
  if n < 10 then [decDigit 0, decDigit n] else natToDec n

/-- A broken-down time as libc's struct tm (year counted from 1900, month
zero-based), restricted to the fields the used format consumes. -/
structure Tm where
  tm_sec : Nat
  tm_min : Nat
  tm_hour : Nat
  tm_mday : Nat
  tm_mon : Nat
  tm_year : Nat
deriving DecidableEq

/-- Modelled libc strftime output for the fixed format string
"%Y-%m-%d-%p-%I-%M-%S" of line 110: year, month, day, AM/PM marker,
12-hour hour, minute, second, separated by dashes. -/
def strftime_session (tm : Tm) : List Char :=
  natToDec (1900 + tm.tm_year) ++ '-' :: pad2 (tm.tm_mon + 1)
    ++ '-' :: pad2 tm.tm_mday
    ++ '-' :: (if tm.tm_hour < 12 then ['A', 'M'] else ['P', 'M'])
    ++ '-' :: pad2 (if tm.tm_hour % 12 = 0 then 12 else tm.tm_hour % 12)
    ++ '-' :: pad2 tm.tm_min ++ '-' :: pad2 tm.tm_sec

/-- trace_session_name_generate (lines 89-119) over a session buffer whose
initial (uninitialised) contents are `junk`: `now` is the combined result
of time()/localtime() (`none` on failure, which the code turns into
-errno, modelled by `os_errno`), `hugePfx` the configured file prefix.
The prefix is copied with rte_strscpy bounded by TRACE_PREFIX_LEN (`PLEN`),
a truncated copy forces the offset to PLEN (line 107), a dash separator is
stored, and strftime writes the timestamp into the remaining
`TRACE_DIR_STR_LEN - rc` (`DLEN - rc`) bytes, failing (returning 0, mapped
to -errno) when it does not fit. -/
def trace_session_name_generate (PLEN DLEN : Nat) (junk : List Char)
    (now : Option Tm) (os_errno : Int) (hugePfx : List Char) :
    Except Int (List Char × Int) :=
  match now with
  | none => Except.error (-os_errno)
  | some tm =>
    let r0 := rte_strscpy junk 0 hugePfx PLEN
    let rc1 : Nat := if r0.2 < 0 then PLEN else r0.2.toNat
    let buf2 := writeAt r0.1 rc1 ['-']
    let rc2 := rc1 + 1
    let ts := strftime_session tm
    if ts.length + 1 ≤ DLEN - rc2 then
      Except.ok (writeAt buf2 rc2 (ts ++ [nulChar]), Int.ofNat ts.length)
    else Except.error (-os_errno)

/-- Rendering of the session-name layout exactly as the specification words
it (a refinement reference for comparison only, not a model of the code):
the prefix, a separator, then day, month, year, AM/PM, 12-hour hour,
minute, second. -/
def spec_claimed_session_name (pfx : List Char) (tm : Tm) : List Char :=
  pfx ++ '-' :: pad2 tm.tm_mday ++ '-' :: pad2 (tm.tm_mon + 1)
    ++ '-' :: natToDec (1900 + tm.tm_year)
    ++ '-' :: (if tm.tm_hour < 12 then ['A', 'M'] else ['P', 'M'])
    ++ '-' :: pad2 (if tm.tm_hour % 12 = 0 then 12 else tm.tm_hour % 12)
    ++ '-' :: pad2 tm.tm_min ++ '-' :: pad2 tm.tm_sec

/-- C7 fails as stated: at 2020-05-04 15:42:07 with prefix "rte" the
generated session name is rte-2020-05-04-PM-03-42-07 (year first), not the
claimed rte-04-05-2020-PM-03-42-07 day-month-year layout. -/
theorem trace_session_name_order_counterexample :
    trace_session_name_generate 12 64 (List.replicate 64 ' ')
        (some ⟨7, 42, 15, 4, 4, 120⟩) 5 "rte".toList =
      Except.ok ("rte-2020-05-04-PM-03-42-07".toList ++
        nulChar :: List.replicate 37 ' ', 22) ∧
    ("rte-2020-05-04-PM-03-42-07".toList ++
        nulChar :: List.replicate 37 ' ').takeWhile (fun c => c != nulChar) ≠
      spec_claimed_session_name "rte".toList ⟨7, 42, 15, 4, 4, 120⟩ := by
  constructor
  · rfl
  · decide

theorem writeAt_zero (buf src : List Char) :
    writeAt buf 0 src = src ++ buf.drop src.length := by
  simp [writeAt]

theorem writeAt_at_append (pre rest src : List Char) (p : Nat)
    (hp : pre.length = p) :
    writeAt (pre ++ rest) p src = pre ++ src ++ rest.drop src.length := by
  subst hp
  rw [writeAt, List.take_left, ← List.drop_drop, List.drop_left]

/-- C7 amended: the generated session-name suffix is the configured
file-prefix (here one that fits within TRACE_PREFIX_LEN), a dash separator,
then the timestamp fields in the order year, month, day, AM/PM marker,
12-hour hour, minute, second - the layout
prefix-YYYY-MM-DD-AM|PM-HH-MM-SS - and a failure of the timestamp source
makes the call fail. -/
theorem trace_session_name_generate_layout (PLEN DLEN : Nat) (junk : List Char)
    (tm : Tm) (os_errno : Int) (pfx : List Char)
    (hfit1 : pfx.length + 1 ≤ PLEN)
    (hfit2 : (strftime_session tm).length + 1 ≤ DLEN - (pfx.length + 1)) :
    trace_session_name_generate PLEN DLEN junk (some tm) os_errno pfx =
      Except.ok (pfx ++ '-' :: strftime_session tm ++
          nulChar :: junk.drop (pfx.length + 2 + (strftime_session tm).length),
        Int.ofNat (strftime_session tm).length) ∧
    trace_session_name_generate PLEN DLEN junk none os_errno pfx =
      Except.error (-os_errno) ∧
    strftime_session tm =
      natToDec (1900 + tm.tm_year) ++ '-' :: pad2 (tm.tm_mon + 1)
        ++ '-' :: pad2 tm.tm_mday
        ++ '-' :: (if tm.tm_hour < 12 then ['A', 'M'] else ['P', 'M'])
        ++ '-' :: pad2 (if tm.tm_hour % 12 = 0 then 12 else tm.tm_hour % 12)
        ++ '-' :: pad2 tm.tm_min ++ '-' :: pad2 tm.tm_sec := by
  refine ⟨?_, rfl, rfl⟩
  have hneg : ¬ ((Int.ofNat pfx.length) < 0) := (Int.ofNat_nonneg pfx.length).not_lt
  have htn : (Int.ofNat pfx.length).toNat = pfx.length := rfl
  simp only [trace_session_name_generate, rte_strscpy, hfit1, if_true,
    hneg, if_false, htn, hfit2]
  have h1 : writeAt junk 0 (pfx ++ [nulChar]) =
      pfx ++ ([nulChar] ++ junk.drop (pfx.length + 1)) := by
    rw [writeAt_zero, List.length_append, List.length_singleton,
      List.append_assoc]
  have h2 : writeAt (pfx ++ ([nulChar] ++ junk.drop (pfx.length + 1)))
      pfx.length ['-'] =
      (pfx ++ ['-']) ++ junk.drop (pfx.length + 1) := by
    rw [writeAt_at_append pfx _ _ pfx.length rfl]
    simp
  have h3 : writeAt ((pfx ++ ['-']) ++ junk.drop (pfx.length + 1))
      (pfx.length + 1) (strftime_session tm ++ [nulChar]) =
      pfx ++ '-' :: strftime_session tm ++
        nulChar :: junk.drop (pfx.length + 2 + (strftime_session tm).length) := by
    rw [writeAt_at_append (pfx ++ ['-']) _ _ (pfx.length + 1) (by simp),
      List.drop_drop, List.length_append, List.length_singleton]
    rw [show pfx.length + 1 + ((strftime_session tm).length + 1) =
      pfx.length + 2 + (strftime_session tm).length from by omega]
    simp
  rw [h1, h2, h3]

/-- Witness for the amended C7: prefix "rte" at 2000-06-04 03:02:01 AM. -/
theorem trace_session_name_generate_layout_witness :
    trace_session_name_generate 12 64 (List.replicate 64 ' ')
        (some ⟨1, 2, 3, 4, 5, 100⟩) 5 "rte".toList =
      Except.ok ("rte".toList ++ '-' :: strftime_session ⟨1, 2, 3, 4, 5, 100⟩ ++
          nulChar :: (List.replicate 64 ' ').drop
            ("rte".toList.length + 2 +
              (strftime_session ⟨1, 2, 3, 4, 5, 100⟩).length),
        Int.ofNat (strftime_session ⟨1, 2, 3, 4, 5, 100⟩).length) :=
  (trace_session_name_generate_layout 12 64 (List.replicate 64 ' ')
    ⟨1, 2, 3, 4, 5, 100⟩ 5 "rte".toList (by decide) (by decide)).1

/-! ## Directory manager (trace_mkdir) -/

/-- Oracle for trace_mkdir: the HOME environment variable, the password
file entry for the current user, the mkdir system call keyed by the path it
is given (`none` meaning success, `some e` failure with errno `e`), the
broken-down current time (`none` on time/localtime failure), the errno the
OS leaves for failed calls, the configured hugefile prefix, and the initial
contents of the local `session` buffer. -/
structure MkdirEnv where
  home : Option (List Char)
  pw_dir : Option (List Char)
  mkdir_rc : List Char → Option Nat
  now : Option Tm
  os_errno : Int
  hugePfx : List Char
  junk : List Char

/-- trace_dir_default_path_get (lines 249-273): HOME, with the password
entry as fallback, suffixed by "/dpdk-traces/" and bounded by the directory
buffer size via snprintf; -EINVAL when neither source yields a home. -/
def trace_dir_default_path_get (cap : Nat) (env : MkdirEnv) :
    Except Int (List Char) :=
  match env.home with
  | some h => Except.ok ((h ++ "/dpdk-traces/".toList).take (cap - 1))
  | none =>
    match env.pw_dir with
    | some h => Except.ok ((h ++ "/dpdk-traces/".toList).take (cap - 1))
    | none => Except.error (-(Int.ofNat EINVAL))

/-- Lines 311-326 of trace_mkdir: generate the session name, append it to
the directory, and create the fully-qualified session directory, where
every mkdir failure - EEXIST included - is fatal and returned as the
negated errno. -/
def trace_mkdir_rest (PLEN DLEN cap : Nat) (env : MkdirEnv) (st1 : TraceDir) :
    TraceDir × Int :=
  match trace_session_name_generate PLEN DLEN env.junk env.now env.os_errno
      env.hugePfx with
  | Except.error e => (st1, e)
  | Except.ok s =>
    let session := s.1.takeWhile (fun c => c != nulChar)
    let r2 := trace_dir_update cap st1 session
    if r2.2 < 0 then r2
    else
      match env.mkdir_rc (dirStr r2.1) with
      | some e => (r2.1, -(Int.ofNat e))
      | none => (r2.1, 0)

/-- trace_mkdir (lines 275-327): resolve the default base path when no
directory was configured (allocation of the scratch buffer is assumed to
succeed), create the base directory treating EEXIST as success, then build
and create the session directory via trace_mkdir_rest. -/
def trace_mkdir (PLEN DLEN cap : Nat) (env : MkdirEnv) (st : TraceDir) :
    TraceDir × Int :=
  let s1 : TraceDir × Int :=
    if st.dir_offset = 0 then
      match trace_dir_default_path_get cap env with
      | Except.error e => (st, e)
      | Except.ok dir_path => trace_dir_update cap st dir_path
    else (st, 0)
  if s1.2 < 0 then s1
  else
    match env.mkdir_rc (dirStr s1.1) with
    | some e =>
      if e = EEXIST then trace_mkdir_rest PLEN DLEN cap env s1.1
      else (s1.1, -(Int.ofNat e))
    | none => trace_mkdir_rest PLEN DLEN cap env s1.1

/-- C5: for a configured directory, the base mkdir treats EEXIST exactly
like success (the call proceeds identically to trace_mkdir_rest), while any
other base creation failure is returned as the negated OS errno; and the
final session-directory mkdir fails on every creation error - for every
errno e, EEXIST included - returning -e, succeeding only when the OS call
succeeds. -/
theorem trace_mkdir_eexist_policy (PLEN DLEN cap : Nat) (env : MkdirEnv)
    (st : TraceDir) (hoff : st.dir_offset ≠ 0) :
    (∀ e : Nat, env.mkdir_rc (dirStr st) = some e → e ≠ EEXIST →
      trace_mkdir PLEN DLEN cap env st = (st, -(Int.ofNat e))) ∧
    (env.mkdir_rc (dirStr st) = some EEXIST →
      trace_mkdir PLEN DLEN cap env st = trace_mkdir_rest PLEN DLEN cap env st) ∧
    (env.mkdir_rc (dirStr st) = none →
      trace_mkdir PLEN DLEN cap env st = trace_mkdir_rest PLEN DLEN cap env st) ∧
    (∀ p st2 r2,
      trace_session_name_generate PLEN DLEN env.junk env.now env.os_errno
          env.hugePfx = Except.ok p →
      trace_dir_update cap st (p.1.takeWhile (fun c => c != nulChar)) =
          (st2, r2) →
      ¬ r2 < 0 →
      (∀ e : Nat, env.mkdir_rc (dirStr st2) = some e →
        trace_mkdir_rest PLEN DLEN cap env st = (st2, -(Int.ofNat e))) ∧
      (env.mkdir_rc (dirStr st2) = none →
        trace_mkdir_rest PLEN DLEN cap env st = (st2, 0))) := by
  have hbase : ∀ x : TraceDir × Int,
      trace_mkdir PLEN DLEN cap env st =
        (match env.mkdir_rc (dirStr st) with
          | some e =>
            if e = EEXIST then trace_mkdir_rest PLEN DLEN cap env st
            else (st, -(Int.ofNat e))
          | none => trace_mkdir_rest PLEN DLEN cap env st) := by
    intro _
    rw [trace_mkdir, if_neg hoff]
    rw [if_neg (by omega : ¬ ((st, (0 : Int)).2 < 0))]
  refine ⟨?_, ?_, ?_, ?_⟩
  · intro e he hne
    rw [hbase (st, 0), he]
    simp [hne]
  · intro he
    rw [hbase (st, 0), he]
    simp
  · intro he
    rw [hbase (st, 0), he]
  · intro p st2 r2 hgen hupd hr2
    rw [trace_mkdir_rest, hgen]
    simp only [hupd, if_neg hr2]
    constructor
    · intro e he
      rw [he]
    · intro he
      rw [he]

/-- Witness for C5: with a configured directory "/tmp/" and an OS on which
every mkdir reports EEXIST, the base creation is tolerated and the final
session-directory creation fails with -EEXIST. -/
theorem trace_mkdir_eexist_policy_witness :
    trace_mkdir 12 64 64
        ⟨some "/home".toList, none, fun _ => some EEXIST,
          some ⟨1, 2, 3, 4, 5, 100⟩, 5, "rte".toList, List.replicate 64 ' '⟩
        ⟨"/tmp/".toList ++ List.replicate 59 ' ', 5⟩ =
      (⟨"/tmp/rte-2000-06-04-AM-03-02-01".toList ++
          nulChar :: List.replicate 32 ' ', 31⟩, -(Int.ofNat EEXIST)) := by
  have h := trace_mkdir_eexist_policy 12 64 64
    ⟨some "/home".toList, none, fun _ => some EEXIST,
      some ⟨1, 2, 3, 4, 5, 100⟩, 5, "rte".toList, List.replicate 64 ' '⟩
    ⟨"/tmp/".toList ++ List.replicate 59 ' ', 5⟩ (by decide)
  have h2 := h.2.1 rfl
  have h4 := (h.2.2.2
    ("rte-2000-06-04-AM-03-02-01".toList ++ nulChar :: List.replicate 37 ' ', 22)
    ⟨"/tmp/rte-2000-06-04-AM-03-02-01".toList ++
      nulChar :: List.replicate 32 ' ', 31⟩
    26 rfl rfl (by omega)).1 EEXIST rfl
  rw [h2, h4]
